import Mathlib

/-!
Shallow embedding of the geometry pipeline of `app_irap.py` (Road KSI Map).

The pipeline stages modelled here, in source order:
  * `load_data`        — Step 1: WKT parsing, LineString filtering, column coercion
  * `crs_normalize`    — Step 2: bounding-box CRS heuristic and reprojection
  * `spatial_filter`   — Step 3: Essex bounding box intersection and KSI ≠ 0 filter
  * `attribute_filter` — Step 4: road-number / speed-limit inclusion filter
  * `ksi_filter`       — Step 5: severity-bucket (KSI range) filter
  * `smooth_geometry` / `smooth_stage` — Step 6: spline smoothing
  * `get_ksi_color`    — Step 7: severity-to-color mapping

Coordinates are rationals. Library calls that are external to the repository
(shapely's WKT parser and `intersects` predicate, scipy's `splprep`/`splev`
spline fit) are modelled abstractly: the parser's per-cell outcome is part of
the raw input (`Option Geom`, `none` meaning the parse raised), the spatial
predicate and the spline fit are function parameters of the stages that call
them. Everything the repository itself does — which rows are kept, which
exceptions are absorbed where, which constants are used — is translated
directly from the source.
-/

set_option autoImplicit false

/-- A parsed geometry, as produced by shapely's WKT reader.  Only the
constructors the pipeline can distinguish are needed: `geom_type` is the
discriminator the source inspects. -/
inductive Geom where
  | lineString (coords : List (Rat × Rat))
  | point (p : Rat × Rat)
  | polygon (ring : List (Rat × Rat))
  deriving DecidableEq, Repr

/-- shapely's `geom_type` attribute. -/
def Geom.geomType : Geom → String
  | .lineString _ => "LineString"
  | .point _ => "Point"
  | .polygon _ => "Polygon"

/-- Number of coordinate vertices of a geometry (`len(geom.coords)`). -/
def Geom.numVertices : Geom → Nat
  | .lineString cs => cs.length
  | .point _ => 1
  | .polygon ring => ring.length

/-- The coordinate sequence of a geometry, used for bounds computation. -/
def Geom.coordsOf : Geom → List (Rat × Rat)
  | .lineString cs => cs
  | .point p => [p]
  | .polygon ring => ring

/-- Apply a coordinate transform to every vertex (a reprojection). -/
def Geom.mapCoords (f : Rat × Rat → Rat × Rat) : Geom → Geom
  | .lineString cs => .lineString (cs.map f)
  | .point p => .point (f p)
  | .polygon ring => .polygon (ring.map f)

/-- One raw CSV row as `load_data` sees it.  `geometry` is the outcome of
`wkt.loads` on the row's geometry string: `none` means the parse raised.
The other cells are `none` when the CSV cell is missing (`NaN`). -/
structure RawRow where
  geometry : Option Geom
  roadNumber : Option String
  speedLimit : Option Int
  ksiCount : Option Int
  deriving DecidableEq, Repr

/-- One record of the working dataset after `load_data`. -/
structure Row where
  geometry : Geom
  roadNumber : String
  speedLimit : Int
  ksiCount : Int
  deriving DecidableEq, Repr

/-- Column coercion applied to the surviving rows of `load_data`:
`fillna("Unknown").astype(str).str.strip()` for the road number,
`fillna(0).astype(int)` for speed limit and KSI count. -/
def normCols (g : Geom) (r : RawRow) : Row :=
  { geometry := g
    roadNumber := (r.roadNumber.getD "Unknown").trim
    speedLimit := r.speedLimit.getD 0
    ksiCount := r.ksiCount.getD 0 }

/-- The column map `df['geometry'].apply(wkt.loads)`: pandas `apply` raises as soon as any
cell fails to parse, so the whole column either parses or the exception
propagates (to be caught by `load_data`'s top-level handler). -/
def parseAll : List RawRow → Option (List (Geom × RawRow))
  | [] => some []
  | r :: rs =>
    match r.geometry with
    | none => none
    | some g => (parseAll rs).map (fun t => (g, r) :: t)

/-- Function `load_data` (lines 54-76): parse every geometry cell, keep only rows whose
geometry has `geom_type == "LineString"`, report an empty frame when nothing
survives, coerce the auxiliary columns.  Any exception — including a WKT parse
failure on a single row — is caught at the top level and yields an empty
frame. -/
def load_data (rows : List RawRow) : List Row :=
  match parseAll rows with
  | none => []
  | some parsed =>
    let kept := parsed.filter (fun p => p.1.geomType == "LineString")
    if kept.isEmpty then []
    else kept.map (fun p => normCols p.1 p.2)

/-- Function `get_ksi_color` (lines 183-190): color for a KSI count. -/
def get_ksi_color (ksi : Int) : String :=
  if 1 ≤ ksi ∧ ksi ≤ 4 then "yellow"
  else if 5 ≤ ksi ∧ ksi ≤ 7 then "orange"
  else "red"

/-- All coordinates of a record set, in order (what `gdf.geometry.bounds`
aggregates over). -/
def allCoords (rows : List Row) : List (Rat × Rat) :=
  rows.flatMap (fun r => r.geometry.coordsOf)

/-- Minimum of two rationals (spelled out so that it evaluates by kernel
reduction). -/
def rmin (a b : Rat) : Rat := if a ≤ b then a else b

/-- Maximum of two rationals. -/
def rmax (a b : Rat) : Rat := if a ≤ b then b else a

/-- Combined bounding box `(min_x, max_x, min_y, max_y)` of the record set
(lines 86-87); `none` when there is no coordinate at all, matching pandas
producing `NaN` there (every comparison against `NaN` is false). -/
def boundsOf (rows : List Row) : Option (Rat × Rat × Rat × Rat) :=
  match allCoords rows with
  | [] => none
  | c :: cs =>
    some (cs.foldl
      (fun b p => (rmin b.1 p.1, rmax b.2.1 p.1, rmin b.2.2.1 p.2, rmax b.2.2.2 p.2))
      (c.1, c.1, c.2, c.2))

/-- The CRS heuristic of line 89: the combined bounds lie strictly inside
longitude (-180, 180) and latitude (-90, 90). -/
def crs_detect (rows : List Row) : Bool :=
  match boundsOf rows with
  | none => false
  | some (mnx, mxx, mny, mxy) =>
    decide (-180 < mnx) && decide (mxx < 180) && decide (-90 < mny) && decide (mxy < 90)

/-- Step 2 (lines 85-93): when the heuristic says the data is already
geographic it is passed through unchanged (`set_crs` only tags metadata);
otherwise every coordinate goes through the EPSG:32631 → EPSG:4326 transform,
modelled as the abstract function `transform`. -/
def crs_normalize (transform : Rat × Rat → Rat × Rat) (rows : List Row) : List Row :=
  if crs_detect rows then rows
  else rows.map (fun r => { r with geometry := r.geometry.mapCoords transform })

/-- An axis-aligned rectangle as built by `shapely.geometry.box(minx, miny,
maxx, maxy)`. -/
structure BBox where
  minx : Rat
  miny : Rat
  maxx : Rat
  maxy : Rat
  deriving DecidableEq, Repr

/-- The dictionary `bbox_coords` (line 98). -/
def bbox_coords : Rat × Rat × Rat × Rat := (51.2, 52.3, -0.2, 1.5)

/-- The rectangle `essex_bbox = box(west, south, east, north)` (line 99). -/
def essex_bbox : BBox :=
  { minx := bbox_coords.2.2.1, miny := bbox_coords.1
    maxx := bbox_coords.2.2.2, maxy := bbox_coords.2.1 }

/-- Step 3 (lines 102-103): keep rows whose geometry intersects `essex_bbox`,
then drop rows with `KSI Count == 0`.  shapely's `intersects` predicate is
library code, modelled as the abstract parameter `inter`. -/
def spatial_filter (inter : Geom → BBox → Bool) (rows : List Row) : List Row :=
  (rows.filter (fun r => inter r.geometry essex_bbox)).filter
    (fun r => r.ksiCount ≠ 0)

/-- Step 4 (line 122): keep rows whose road number and speed limit are in the
selected sets. -/
def attribute_filter (roads : List String) (speeds : List Int) (rows : List Row) :
    List Row :=
  rows.filter (fun r => roads.contains r.roadNumber && speeds.contains r.speedLimit)

/-- Severity bucket "1–4": `(KSI Count >= 1) & (KSI Count <= 4)` (line 144). -/
def cond_1_4 (k : Int) : Bool := decide (1 ≤ k) && decide (k ≤ 4)

/-- Severity bucket "5–7": `(KSI Count >= 5) & (KSI Count <= 7)` (line 146). -/
def cond_5_7 (k : Int) : Bool := decide (5 ≤ k) && decide (k ≤ 7)

/-- Severity bucket "8+": `KSI Count >= 8` (line 148). -/
def cond_8 (k : Int) : Bool := decide (8 ≤ k)

/-- The `ksi_conditions` list (lines 142-148): one Boolean mask per enabled
bucket checkbox, in source order. -/
def ksi_conds (f14 f57 f8 : Bool) : List (Int → Bool) :=
  (if f14 then [cond_1_4] else []) ++
    (if f57 then [cond_5_7] else []) ++
    (if f8 then [cond_8] else [])

/-- Lines 151-153: `combined_ksi = ksi_conditions.pop(0)` then `|=` over the
rest. -/
def combineConds : (Int → Bool) → List (Int → Bool) → (Int → Bool)
  | c, [] => c
  | c, c2 :: cs => combineConds (fun k => c k || c2 k) cs

/-- Step 5 (lines 141-154): the severity-bucket filter.  It runs only on a
non-empty frame; when no bucket is enabled `ksi_conditions` is empty and the
frame is left untouched. -/
def ksi_filter (f14 f57 f8 : Bool) (rows : List Row) : List Row :=
  if rows.isEmpty then rows
  else
    match ksi_conds f14 f57 f8 with
    | [] => rows
    | c :: cs => rows.filter (fun r => combineConds c cs r.ksiCount)

/-- The grid `np.linspace(0, 1.0, num=n)`: `n` evenly spaced values from 0 to 1
inclusive.  (For `n = 1` numpy yields `[0]`; `(0 : Rat) / 0 = 0` gives the
same here.) -/
def linspace (n : Nat) : List Rat :=
  (List.range n).map (fun (i : Nat) => (i : Rat) / ((n : Rat) - 1))

/-- Function `smooth_geometry` (lines 157-173).  The scipy spline fit
`splprep([x, y], s=smoothing_factor)` is modelled as the abstract parameter
`fit`, taking the smoothing factor and the coordinate list: `none` means
`splprep` raised, `some spl` a fitted parametric spline that `splev`
evaluates pointwise.  shapely's `LineString` constructor raises on a single
coordinate pair; that exception is absorbed by the same handler, so the
original geometry comes back in that case too. -/
def smooth_geometry (fit : Rat → List (Rat × Rat) → Option (Rat → Rat × Rat))
    (geom : Geom) (smoothing_factor : Rat) (num_points : Nat) : Geom :=
  match geom with
  | Geom.lineString coords =>
    if 2 < coords.length then
      match fit smoothing_factor coords with
      | some spl =>
        let pts := (linspace num_points).map spl
        if pts.length == 1 then geom
        else Geom.lineString pts
      | none => geom
    else geom
  | g => g

/-- Step 6 (lines 175-180): smooth every geometry of a non-empty frame with
`smoothing_factor=0, num_points=500`. -/
def smooth_stage (fit : Rat → List (Rat × Rat) → Option (Rat → Rat × Rat))
    (rows : List Row) : List Row :=
  if rows.isEmpty then rows
  else rows.map (fun r => { r with geometry := smooth_geometry fit r.geometry 0 500 })

/-- The record set handed to the renderer before smoothing: Steps 3, 4 and 5
composed in source order. -/
def pipeline_filtered (inter : Geom → BBox → Bool) (roads : List String)
    (speeds : List Int) (f14 f57 f8 : Bool) (rows : List Row) : List Row :=
  ksi_filter f14 f57 f8 (attribute_filter roads speeds (spatial_filter inter rows))

/-- The disjunction of the enabled bucket conditions, in source order: the
predicate that `combined_ksi` denotes when at least one bucket is enabled. -/
def ksiPred (f14 f57 f8 : Bool) (k : Int) : Bool :=
  ((f14 && cond_1_4 k) || (f57 && cond_5_7 k)) || (f8 && cond_8 k)

/-- Does a raw row survive the LineString filter of `load_data`? -/
def isLsRow (r : RawRow) : Bool :=
  match r.geometry with
  | some g => g.geomType == "LineString"
  | none => false

/-- The record a surviving raw row becomes (its geometry is known to be
present when this is used). -/
def normRowD (r : RawRow) : Row :=
  normCols (r.geometry.getD (Geom.lineString [])) r

/-- Does a raw row's parsed LineString (when it has one) carry at least two
vertices?  shapely's WKT reader guarantees this for every non-empty
LineString; only `LINESTRING EMPTY` violates it. -/
def hasMin2 (raw : RawRow) : Bool :=
  match raw.geometry with
  | some (Geom.lineString cs) => decide (2 ≤ cs.length)
  | _ => true

/- Concrete data used by witnesses and counterexamples. -/

/-- A two-vertex polyline inside the Essex bounding box. -/
def geomIn : Geom := Geom.lineString [(0, 52), (1, 52)]

/-- A three-vertex coordinate list. -/
def coords3 : List (Rat × Rat) := [(0, 0), (1, 1), (2, 0)]

/-- A record with a negative KSI count. -/
def rowNeg : Row := { geometry := geomIn, roadNumber := "A12", speedLimit := 30, ksiCount := -1 }

/-- A record with KSI count 3. -/
def rowK3 : Row := { geometry := geomIn, roadNumber := "A12", speedLimit := 30, ksiCount := 3 }

/-- A record with a three-vertex geometry and KSI count 3. -/
def rowTri : Row :=
  { geometry := Geom.lineString coords3, roadNumber := "A12", speedLimit := 30, ksiCount := 3 }

/-- A spline fit that always raises. -/
def fitNone : Rat → List (Rat × Rat) → Option (Rat → Rat × Rat) := fun _ _ => none

/-- A spline fit that always succeeds, with the diagonal spline. -/
def fitDiag : Rat → List (Rat × Rat) → Option (Rat → Rat × Rat) :=
  fun _ _ => some (fun t => (t, t))

/-- An intersection predicate that accepts everything. -/
def interTrue : Geom → BBox → Bool := fun _ _ => true

/-- A raw row whose geometry parses to a two-vertex LineString. -/
def rawGood : RawRow :=
  { geometry := some (Geom.lineString [(0, 0), (1, 1)])
    roadNumber := some "A12", speedLimit := some 30, ksiCount := some 3 }

/-- A raw row whose geometry string fails to parse (`wkt.loads` raises). -/
def rawBad : RawRow :=
  { geometry := none, roadNumber := some "B1", speedLimit := some 40, ksiCount := some 10 }

/-- A raw row whose geometry parses to `LINESTRING EMPTY`: geom_type is
LineString, with zero vertices. -/
def rawEmptyLS : RawRow :=
  { geometry := some (Geom.lineString [])
    roadNumber := some "A12", speedLimit := some 30, ksiCount := some 2 }

/-- A raw row whose geometry parses to a Point. -/
def rawPoint : RawRow :=
  { geometry := some (Geom.point (0, 0))
    roadNumber := some "B1", speedLimit := some 40, ksiCount := some 10 }

/-! ## Helper lemmas -/

theorem linspace_length (n : Nat) : (linspace n).length = n := by
  rw [linspace, List.length_map, List.length_range]

theorem ksi_filter_eq (f14 f57 f8 : Bool) (rows : List Row) :
    ksi_filter f14 f57 f8 rows =
      if f14 || f57 || f8 then
        rows.filter (fun r => ksiPred f14 f57 f8 r.ksiCount)
      else rows := by
  cases rows with
  | nil => cases f14 <;> cases f57 <;> cases f8 <;> simp [ksi_filter]
  | cons a l =>
    cases f14 <;> cases f57 <;> cases f8 <;>
      simp [ksi_filter, ksi_conds, combineConds, ksiPred]

theorem smooth_stage_eq_map
    (fit : Rat → List (Rat × Rat) → Option (Rat → Rat × Rat)) (rows : List Row) :
    smooth_stage fit rows =
      rows.map (fun r => { r with geometry := smooth_geometry fit r.geometry 0 500 }) := by
  cases rows <;> simp [smooth_stage]

theorem mem_spatial_filter {inter : Geom → BBox → Bool} {rows : List Row} {r : Row}
    (h : r ∈ spatial_filter inter rows) :
    r ∈ rows ∧ inter r.geometry essex_bbox = true ∧ r.ksiCount ≠ 0 := by
  rcases List.mem_filter.mp h with ⟨h2, hq⟩
  rcases List.mem_filter.mp h2 with ⟨h3, hp⟩
  exact ⟨h3, hp, by simpa using hq⟩

theorem mem_ksi_filter {f14 f57 f8 : Bool} {rows : List Row} {r : Row}
    (h : r ∈ ksi_filter f14 f57 f8 rows) : r ∈ rows := by
  rw [ksi_filter_eq] at h
  by_cases hf : (f14 || f57 || f8) = true
  · rw [if_pos hf] at h; exact List.mem_filter.mp h |>.1
  · rw [if_neg hf] at h; exact h

/-! ## C10 -/

/-- C10: `get_ksi_color` maps every integer outside [1,7] — including 0 and
negatives — to "red". -/
theorem get_ksi_color_red_outside (k : Int) (h : ¬(1 ≤ k ∧ k ≤ 7)) :
    get_ksi_color k = "red" := by
  unfold get_ksi_color
  rcases Decidable.em (1 ≤ k ∧ k ≤ 4) with h1 | h1
  · exact absurd (by omega : 1 ≤ k ∧ k ≤ 7) h
  · rcases Decidable.em (5 ≤ k ∧ k ≤ 7) with h2 | h2
    · exact absurd (by omega : 1 ≤ k ∧ k ≤ 7) h
    · simp [h1, h2]

/-- C10 witness: at `k = 0` the hypothesis holds and the color is red. -/
theorem get_ksi_color_red_outside_witness :
    ¬(1 ≤ (0 : Int) ∧ (0 : Int) ≤ 7) ∧ get_ksi_color 0 = "red" :=
  ⟨by decide, get_ksi_color_red_outside 0 (by decide)⟩

/-! ## C7 -/

/-- C7: when the combined bounding box lies strictly inside longitude
(-180,180) and latitude (-90,90), the CRS normalizer passes the record set
through unchanged, hence applying it twice equals applying it once. -/
theorem crs_normalize_idempotent (T : Rat × Rat → Rat × Rat) (rows : List Row)
    (h : crs_detect rows = true) :
    crs_normalize T rows = rows ∧
      crs_normalize T (crs_normalize T rows) = crs_normalize T rows := by
  have h1 : crs_normalize T rows = rows := by simp [crs_normalize, h]
  exact ⟨h1, by rw [h1]; exact h1⟩

/-- C7 witness: a concrete in-bounds record set is passed through unchanged
and idempotently. -/
theorem crs_normalize_idempotent_witness :
    crs_normalize (fun p => p) [rowK3] = [rowK3] ∧
      crs_normalize (fun p => p) (crs_normalize (fun p => p) [rowK3]) =
        crs_normalize (fun p => p) [rowK3] :=
  crs_normalize_idempotent (fun p => p) [rowK3] (by decide)

/-! ## C5 -/

/-- C5 counterexample: a record with a geometry intersecting the region and
`ksi_count = -1` survives the spatial and zero-severity stage (the code only
drops `ksi_count == 0`), yet does not satisfy `ksi_count ≥ 1`. -/
theorem spatial_filter_negative_ksi_cex :
    rowNeg ∈ spatial_filter interTrue [rowNeg] ∧ ¬(1 ≤ rowNeg.ksiCount) := by
  decide

/-- C5 (amended): after the spatial and zero-severity stage every survivor
intersects the region (per the intersection predicate applied to
`essex_bbox`) and has `ksi_count ≠ 0`; the stronger `ksi_count ≥ 1` holds as
soon as every input count is non-negative. -/
theorem spatial_filter_invariant (inter : Geom → BBox → Bool) (rows : List Row)
    (r : Row) (h : r ∈ spatial_filter inter rows) :
    inter r.geometry essex_bbox = true ∧ r.ksiCount ≠ 0 ∧
      (rows.all (fun x => decide (0 ≤ x.ksiCount)) = true → 1 ≤ r.ksiCount) := by
  rcases mem_spatial_filter h with ⟨hmem, hin, hne⟩
  refine ⟨hin, hne, fun hall => ?_⟩
  have h0 : 0 ≤ r.ksiCount := by simpa using List.all_eq_true.mp hall r hmem
  omega

/-- C5 witness: the amended invariant at a concrete record set. -/
theorem spatial_filter_invariant_witness :
    interTrue rowK3.geometry essex_bbox = true ∧ rowK3.ksiCount ≠ 0 ∧
      ([rowK3].all (fun x => decide (0 ≤ x.ksiCount)) = true → 1 ≤ rowK3.ksiCount) :=
  spatial_filter_invariant interTrue [rowK3] rowK3 (by decide)

/-! ## C3 -/

/-- C3 counterexample: with all three buckets disabled the severity filter is
skipped, so a non-empty record set passes through unchanged instead of
becoming empty. -/
theorem ksi_filter_all_disabled_cex :
    ksi_filter false false false [rowK3] = [rowK3] ∧ ([rowK3] : List Row) ≠ [] := by
  decide

/-- C3 (amended): when at least one bucket is enabled, a record passes the
severity filter iff its `ksi_count` lies in an enabled bucket; when all three
buckets are disabled the filter is skipped and the record set is returned
unchanged (not empty). -/
theorem ksi_filter_buckets (f14 f57 f8 : Bool) (rows : List Row) (r : Row)
    (hflag : (f14 || f57 || f8) = true) :
    (r ∈ ksi_filter f14 f57 f8 rows ↔
        r ∈ rows ∧ ksiPred f14 f57 f8 r.ksiCount = true) ∧
      ksi_filter false false false rows = rows := by
  constructor
  · rw [ksi_filter_eq, if_pos hflag, List.mem_filter]
  · rw [ksi_filter_eq]
    simp

/-- C3 witness: the amended statement at a concrete record set with only the
"1–4" bucket enabled. -/
theorem ksi_filter_buckets_witness :
    (rowK3 ∈ ksi_filter true false false [rowK3] ↔
        rowK3 ∈ [rowK3] ∧ ksiPred true false false rowK3.ksiCount = true) ∧
      ksi_filter false false false [rowK3] = [rowK3] :=
  ksi_filter_buckets true false false [rowK3] rowK3 (by decide)

/-! ## C1 -/

/-- C1: a LineString with more than 2 vertices whose spline fit succeeds is
replaced by the resampled spline with exactly `num_points` vertices (for any
resample count of at least 2, which covers the default 500); a geometry with
2 or fewer vertices is returned unchanged. -/
theorem smooth_geometry_resample
    (fit : Rat → List (Rat × Rat) → Option (Rat → Rat × Rat)) (s : Rat)
    (n : Nat) (coords : List (Rat × Rat)) :
    (∀ spl, fit s coords = some spl → 2 < coords.length → 2 ≤ n →
        smooth_geometry fit (Geom.lineString coords) s n =
            Geom.lineString ((linspace n).map spl) ∧
          (smooth_geometry fit (Geom.lineString coords) s n).numVertices = n) ∧
      (coords.length ≤ 2 →
        smooth_geometry fit (Geom.lineString coords) s n = Geom.lineString coords) := by
  constructor
  · intro spl hfit hlen hn
    have hn1 : (n == 1) = false := beq_false_of_ne (by omega)
    have heq : smooth_geometry fit (Geom.lineString coords) s n =
        Geom.lineString ((linspace n).map spl) := by
      simp [smooth_geometry, hlen, hfit, List.length_map, linspace_length, hn1]
    refine ⟨heq, ?_⟩
    rw [heq, Geom.numVertices, List.length_map, linspace_length]
  · intro hlen
    have hnot : ¬(2 < coords.length) := by omega
    simp [smooth_geometry, hnot]

/-- C1 witness: a successful fit on a 3-vertex line resamples to 500
vertices; a 2-vertex line is unchanged. -/
theorem smooth_geometry_resample_witness :
    (smooth_geometry fitDiag (Geom.lineString coords3) 0 500).numVertices = 500 ∧
      smooth_geometry fitDiag (Geom.lineString [(0, 0), (1, 1)]) 0 500 =
        Geom.lineString [(0, 0), (1, 1)] :=
  ⟨((smooth_geometry_resample fitDiag 0 500 coords3).1 (fun t => (t, t)) rfl
      (by decide) (by decide)).2,
    (smooth_geometry_resample fitDiag 0 500 [(0, 0), (1, 1)]).2 (by decide)⟩

/-! ## C4 -/

/-- C4: the smoothing stage never removes a record — the output has the same
length as the input — and a record whose spline fit raises keeps its original
geometry (and all other fields) unchanged. -/
theorem smooth_stage_preserves_records
    (fit : Rat → List (Rat × Rat) → Option (Rat → Rat × Rat)) (rows : List Row) :
    (smooth_stage fit rows).length = rows.length ∧
      ∀ (i : Nat) (r : Row), rows[i]? = some r →
        (∀ cs, r.geometry = Geom.lineString cs → fit 0 cs = none) →
        (smooth_stage fit rows)[i]? = some r := by
  rw [smooth_stage_eq_map]
  refine ⟨List.length_map _ _, fun i r hi hfail => ?_⟩
  rw [List.getElem?_map, hi]
  have hg : smooth_geometry fit r.geometry 0 500 = r.geometry := by
    cases hcase : r.geometry with
    | lineString cs =>
      by_cases hlen : 2 < cs.length
      · simp [smooth_geometry, hlen, hfail cs hcase]
      · simp [smooth_geometry, hlen]
    | point p => rfl
    | polygon ring => rfl
  simp [hg]

/-- C4 witness: with a fit that always raises, a one-record set keeps its
length and its record, geometry untouched. -/
theorem smooth_stage_preserves_records_witness :
    (smooth_stage fitNone [rowTri]).length = [rowTri].length ∧
      (smooth_stage fitNone [rowTri])[0]? = some rowTri :=
  ⟨(smooth_stage_preserves_records fitNone [rowTri]).1,
    (smooth_stage_preserves_records fitNone [rowTri]).2 0 rowTri rfl
      (fun _ _ => rfl)⟩

/-! ## C6 -/

theorem mem_smooth_stage_ksi
    {fit : Rat → List (Rat × Rat) → Option (Rat → Rat × Rat)} {rows : List Row}
    {r : Row} (h : r ∈ smooth_stage fit rows) :
    ∃ r0 ∈ rows, r.ksiCount = r0.ksiCount := by
  rw [smooth_stage_eq_map] at h
  rcases List.mem_map.mp h with ⟨r0, hr0, heq⟩
  exact ⟨r0, hr0, by rw [← heq]⟩

/-- C6: the color mapping sends `ksi_count = 4` to yellow (bucket "1–4"),
5 to orange (bucket "5–7") and 8 to red (bucket "8+"), and the corresponding
bucket conditions accept those values; every record that reaches the
rendering stage has `ksi_count ≠ 0`, the zero-count records having been
dropped at the spatial stage. -/
theorem severity_color_mapping :
    get_ksi_color 4 = "yellow" ∧ get_ksi_color 5 = "orange" ∧
      get_ksi_color 8 = "red" ∧ cond_1_4 4 = true ∧ cond_5_7 5 = true ∧
      cond_8 8 = true ∧
      ∀ (fit : Rat → List (Rat × Rat) → Option (Rat → Rat × Rat))
        (inter : Geom → BBox → Bool) (roads : List String) (speeds : List Int)
        (f14 f57 f8 : Bool) (rows : List Row) (r : Row),
        r ∈ smooth_stage fit (pipeline_filtered inter roads speeds f14 f57 f8 rows) →
        r.ksiCount ≠ 0 := by
  refine ⟨by decide, by decide, by decide, by decide, by decide, by decide, ?_⟩
  intro fit inter roads speeds f14 f57 f8 rows r h
  rcases mem_smooth_stage_ksi h with ⟨r0, hr0, hk⟩
  have h1 : r0 ∈ attribute_filter roads speeds (spatial_filter inter rows) :=
    mem_ksi_filter hr0
  have h2 : r0 ∈ spatial_filter inter rows := (List.mem_filter.mp h1).1
  rw [hk]
  exact (mem_spatial_filter h2).2.2

/-- C6 witness: the membership implication applied to a concrete record that
reaches the rendering stage. -/
theorem severity_color_mapping_witness : rowK3.ksiCount ≠ 0 :=
  severity_color_mapping.2.2.2.2.2.2 fitNone interTrue ["A12"] [30] true true true
    [rowK3] rowK3 (by decide)

/-! ## C8 -/

/-- C8: the spatial filter, the attribute filter and the severity filter
pairwise commute, so the code's application order yields the same record set
as any other order (shown here also for the fully reversed order). -/
theorem filters_commute (inter : Geom → BBox → Bool) (roads : List String)
    (speeds : List Int) (f14 f57 f8 : Bool) (rows : List Row) :
    attribute_filter roads speeds (spatial_filter inter rows) =
        spatial_filter inter (attribute_filter roads speeds rows) ∧
      ksi_filter f14 f57 f8 (spatial_filter inter rows) =
        spatial_filter inter (ksi_filter f14 f57 f8 rows) ∧
      ksi_filter f14 f57 f8 (attribute_filter roads speeds rows) =
        attribute_filter roads speeds (ksi_filter f14 f57 f8 rows) ∧
      pipeline_filtered inter roads speeds f14 f57 f8 rows =
        spatial_filter inter
          (attribute_filter roads speeds (ksi_filter f14 f57 f8 rows)) := by
  cases hf : (f14 || f57 || f8) with
  | false =>
    refine ⟨?_, ?_, ?_, ?_⟩ <;>
      · simp only [pipeline_filtered, spatial_filter, attribute_filter,
          ksi_filter_eq, hf, Bool.false_eq_true, if_false, List.filter_filter]
        try exact List.filter_congr (fun x _ => by
          simp [Bool.and_comm, Bool.and_left_comm, Bool.and_assoc])
  | true =>
    refine ⟨?_, ?_, ?_, ?_⟩ <;>
      · simp only [pipeline_filtered, spatial_filter, attribute_filter,
          ksi_filter_eq, hf, if_true, List.filter_filter]
        try exact List.filter_congr (fun x _ => by
          simp [Bool.and_comm, Bool.and_left_comm, Bool.and_assoc])

/-! ## Loader lemmas -/

theorem parseAll_none {rows : List RawRow} {r : RawRow} (hr : r ∈ rows)
    (hg : r.geometry = none) : parseAll rows = none := by
  induction rows with
  | nil => simp at hr
  | cons a l ih =>
    rcases List.mem_cons.mp hr with rfl | hmem
    · simp [parseAll, hg]
    · cases ha : a.geometry with
      | none => simp [parseAll, ha]
      | some g => simp [parseAll, ha, ih hmem]

theorem parseAll_eq_of_all_some (rows : List RawRow)
    (h : ∀ r ∈ rows, r.geometry ≠ none) :
    parseAll rows =
      some (rows.filterMap (fun r => r.geometry.map (fun g => (g, r)))) := by
  induction rows with
  | nil => rfl
  | cons a l ih =>
    cases ha : a.geometry with
    | none => exact absurd ha (h a (List.mem_cons_self a l))
    | some g =>
      have ih2 := ih (fun r hr => h r (List.mem_cons_of_mem a hr))
      simp [parseAll, ha, ih2, List.filterMap_cons]

theorem load_data_of_parse (rows : List RawRow) (parsed : List (Geom × RawRow))
    (h : parseAll rows = some parsed) :
    load_data rows =
      (parsed.filter (fun p => p.1.geomType == "LineString")).map
        (fun p => normCols p.1 p.2) := by
  simp only [load_data, h]
  by_cases he :
      (parsed.filter (fun p => p.1.geomType == "LineString")).isEmpty = true
  · rw [List.isEmpty_iff] at he
    simp [he]
  · simp [he]

theorem kept_eq_filter_ls (rows : List RawRow) :
    ((rows.filterMap (fun r => r.geometry.map (fun g => (g, r)))).filter
        (fun p => p.1.geomType == "LineString")).map (fun p => normCols p.1 p.2) =
      (rows.filter isLsRow).map normRowD := by
  induction rows with
  | nil => rfl
  | cons a l ih =>
    cases ha : a.geometry with
    | none => simp [List.filterMap_cons, ha, isLsRow, ih]
    | some g =>
      by_cases hls : (g.geomType == "LineString") = true
      · simp [List.filterMap_cons, ha, isLsRow, hls, ih, normRowD]
      · simp [List.filterMap_cons, ha, isLsRow, hls, ih]

theorem parseAll_mem (rows : List RawRow) (parsed : List (Geom × RawRow))
    (h : parseAll rows = some parsed) :
    ∀ p ∈ parsed, p.2 ∈ rows ∧ p.2.geometry = some p.1 := by
  induction rows generalizing parsed with
  | nil =>
    intro p hp
    simp only [parseAll, Option.some.injEq] at h
    subst h
    simp at hp
  | cons a l ih =>
    intro p hp
    cases ha : a.geometry with
    | none => simp [parseAll, ha] at h
    | some g =>
      simp only [parseAll, ha] at h
      cases hl : parseAll l with
      | none => rw [hl] at h; simp at h
      | some t =>
        rw [hl] at h
        simp only [Option.map_some', Option.some.injEq] at h
        subst h
        rcases List.mem_cons.mp hp with rfl | hp2
        · exact ⟨List.mem_cons_self a l, ha⟩
        · have h2 := ih t hl p hp2
          exact ⟨List.mem_cons_of_mem a h2.1, h2.2⟩

theorem mem_load_data {rows : List RawRow} {r : Row} (h : r ∈ load_data rows) :
    ∃ g raw, raw ∈ rows ∧ raw.geometry = some g ∧ g.geomType = "LineString" ∧
      r = normCols g raw := by
  cases hp : parseAll rows with
  | none => simp [load_data, hp] at h
  | some parsed =>
    rw [load_data_of_parse rows parsed hp] at h
    rcases List.mem_map.mp h with ⟨p, hpf, heq⟩
    rcases List.mem_filter.mp hpf with ⟨hpp, hls⟩
    have hls2 : p.1.geomType = "LineString" := by simpa using hls
    rcases parseAll_mem rows parsed hp p hpp with ⟨hraw, hgeom⟩
    exact ⟨p.1, p.2, hraw, hgeom, hls2, heq.symm⟩

/-! ## C2 -/

/-- C2 counterexample: one unparsable geometry string empties the whole load —
the parse exception escapes the per-row stage and hits the top-level handler —
even though the same well-formed row alone would be preserved. -/
theorem load_data_parse_abort_cex :
    load_data [rawBad, rawGood] = [] ∧ load_data [rawGood] ≠ [] := by decide

/-- C2 (amended): when every geometry string parses, exactly the rows whose
shape is not a LineString are dropped and all other rows are preserved in
order (with columns normalized); but a row whose geometry string fails to
parse aborts the whole load, which returns the empty record set. -/
theorem load_data_row_handling (rows : List RawRow) :
    ((∀ r ∈ rows, r.geometry ≠ none) →
        load_data rows = (rows.filter isLsRow).map normRowD) ∧
      ((∃ r ∈ rows, r.geometry = none) → load_data rows = []) := by
  constructor
  · intro h
    rw [load_data_of_parse rows _ (parseAll_eq_of_all_some rows h)]
    exact kept_eq_filter_ls rows
  · rintro ⟨r, hr, hg⟩
    simp [load_data, parseAll_none hr hg]

/-- C2 witness: a LineString row plus a Point row loads to exactly the
LineString rows; a single unparsable row loads to the empty set. -/
theorem load_data_row_handling_witness :
    load_data [rawGood, rawPoint] =
        ([rawGood, rawPoint].filter isLsRow).map normRowD ∧
      load_data [rawBad] = [] :=
  ⟨(load_data_row_handling [rawGood, rawPoint]).1 (by decide),
    (load_data_row_handling [rawBad]).2 ⟨rawBad, by decide, rfl⟩⟩

/-! ## C9 -/

/-- C9 counterexample: a row carrying `LINESTRING EMPTY` survives the load —
its geom_type is LineString — yet its geometry has 0 vertices, so loaded
records need not be polylines with at least 2 vertices and empty LineStrings
are not dropped. -/
theorem load_data_empty_ls_cex :
    load_data [rawEmptyLS] = [normRowD rawEmptyLS] ∧
      (normRowD rawEmptyLS).geometry.numVertices = 0 :=
  ⟨rfl, rfl⟩

/-- C9 (amended): after a successful load every record's geometry is a
LineString (non-LineString rows are dropped); and provided every input
LineString carries at least 2 vertices — true of shapely WKT output except
for `LINESTRING EMPTY`, which the loader retains — every loaded record has at
least 2 vertices. -/
theorem load_data_geometry_invariant (rows : List RawRow) :
    (∀ r ∈ load_data rows, r.geometry.geomType = "LineString") ∧
      (rows.all hasMin2 = true →
        ∀ r ∈ load_data rows, 2 ≤ r.geometry.numVertices) := by
  constructor
  · intro r hr
    rcases mem_load_data hr with ⟨g, raw, hraw, hgeom, hls, rfl⟩
    simpa [normCols] using hls
  · intro hall r hr
    rcases mem_load_data hr with ⟨g, raw, hraw, hgeom, hls, rfl⟩
    cases g with
    | lineString cs =>
      have h2 := List.all_eq_true.mp hall raw hraw
      unfold hasMin2 at h2
      rw [hgeom] at h2
      simp at h2
      simpa [normCols, Geom.numVertices] using h2
    | point p => simp [Geom.geomType] at hls
    | polygon ring => simp [Geom.geomType] at hls

/-- C9 witness: the amended invariant at a one-row input whose LineString has
2 vertices. -/
theorem load_data_geometry_invariant_witness :
    normRowD rawGood ∈ load_data [rawGood] ∧
      (normRowD rawGood).geometry.geomType = "LineString" ∧
      2 ≤ (normRowD rawGood).geometry.numVertices :=
  ⟨List.mem_singleton.mpr rfl,
    (load_data_geometry_invariant [rawGood]).1 (normRowD rawGood)
      (List.mem_singleton.mpr rfl),
    (load_data_geometry_invariant [rawGood]).2 (by decide) (normRowD rawGood)
      (List.mem_singleton.mpr rfl)⟩
